import Mathlib

/-!
Verification of the JSWST interactive region-capture orchestrator against its
natural-language specification.

Shallow embedding of:
* the `Region` model from `src/lib.rs` (normalize),
* the validation/crop pipeline of `WaylandBackend::capture` from
  `src/capture/wayland.rs`,
* the portal round-trip `WaylandBackend::capture_via_portal`,
* the selection-overlay event handlers from `src/ui/overlay.rs`,
* the region formatting/parsing hand-off (`format!("{},{},{},{}", ..)` in the
  overlay and `Args::parse_region` in `src/cli/args.rs`).

Machine-integer conventions: `i32` values are modelled as `Int` and `u32`
values as `Nat`; wherever the Rust code performs `u32`/`i32` arithmetic or an
integer `as` cast, the wrap-around is made explicit with `% 4294967296`
(release-mode wrapping semantics).  Pointer coordinates (`f64` in the source)
are modelled as rationals; the `as i32` / `as u32` casts from floats use
Rust's truncate-then-saturate semantics.  Rasters are modelled by their
dimensions: every property claimed about this code (bounds validation, crop
size, error paths) depends only on dimensions.
-/

namespace JSWST

/-- Two's-complement wrap of an integer into the `i32` range
`[-2147483648, 2147483647]`.  Models the result of a wrapping `i32`
operation or of a `u32 as i32` cast. -/
def wrap32 (n : Int) : Int := (n + 2147483648) % 4294967296 - 2147483648

/-- The value of `n as u32` for an `i32` value `n` (integer-to-integer `as`
casts in Rust wrap). -/
def u32ofI32 (n : Int) : Nat := (n % 4294967296).toNat

/-- The `Region` struct from `src/lib.rs:148-154`
(`x, y : i32`, `width, height : u32`). -/
structure Region where
  x : Int
  y : Int
  width : Nat
  height : Nat
deriving DecidableEq

/-- `Region::new` (src/lib.rs:157-164). -/
def Region.new (x y : Int) (width height : Nat) : Region :=
  { x := x, y := y, width := width, height := height }

/-- `Region::normalize` (src/lib.rs:166-173):
`x := x.min(x + width as i32)`, `y := y.min(y + height as i32)`, width and
height unchanged.  `width as i32` reinterprets the `u32` bits as `i32`
(`wrap32`), and the `+` is wrapping `i32` addition. -/
def Region.normalize (r : Region) : Region :=
  { r with
    x := min r.x (wrap32 (r.x + wrap32 r.width))
    y := min r.y (wrap32 (r.y + wrap32 r.height)) }

/-- A returned raster, modelled by its dimensions (`RgbaImage::width/height`). -/
structure Raster where
  width : Nat
  height : Nat
deriving DecidableEq

/-- The `ScreenshotError` variants reachable from `WaylandBackend::capture`
(src/error.rs). -/
inductive ScreenshotErr where
  | portal (msg : String)
  | image
  | invalidRegion (msg : String)
deriving DecidableEq

/-- The rejection condition of the bounds check in `WaylandBackend::capture`
(src/capture/wayland.rs:60-64):
`region.x < 0 || region.y < 0 || region.x as u32 + region.width > data.width()
|| region.y as u32 + region.height > data.height()`.
The `u32` additions wrap modulo `2^32`.  Returns `true` when the region is
rejected. -/
def boundsCheckFails (r : Region) (data : Raster) : Bool :=
  decide (r.x < 0) || decide (r.y < 0)
    || decide ((u32ofI32 r.x + r.width) % 4294967296 > data.width)
    || decide ((u32ofI32 r.y + r.height) % 4294967296 > data.height)

/-- Dimension behaviour of
`image::imageops::crop_imm(&data, region.x as u32, region.y as u32,
region.width, region.height).to_image()` (src/capture/wayland.rs:70-77).
The image crate clamps the rectangle to the source bounds (`crop_dimms`):
`x' = min x w`, `y' = min y h`, `width' = min width (w - x')`,
`height' = min height (h - y')`. -/
def cropImm (data : Raster) (r : Region) : Raster :=
  { width := min r.width (data.width - min (u32ofI32 r.x) data.width)
    height := min r.height (data.height - min (u32ofI32 r.y) data.height) }

/-- The region post-processing block of `WaylandBackend::capture`
(src/capture/wayland.rs:57-80): when a region is supplied, normalize it,
run the bounds check, and either fail with `InvalidRegion` or crop. -/
def applyRegion : Option Region → Raster → Except ScreenshotErr Raster
  | none, data => .ok data
  | some region, data =>
    let region := region.normalize
    if boundsCheckFails region data then
      .error (.invalidRegion "Region out of bounds")
    else
      .ok (cropImm data region)

/-- `CaptureMode` (src/lib.rs:24-29). -/
inductive CaptureMode where
  | screen
  | window
  | region
  | monitor
deriving DecidableEq

/-- The field of `CaptureOptions` that `WaylandBackend::capture` branches on
(`delay` merely sleeps first; `include_cursor` and `monitor_index` are unused
there). -/
structure CaptureOptions where
  region : Option Region
deriving DecidableEq

/-- The `match mode` of `WaylandBackend::capture` (src/capture/wayland.rs:45-55):
which portal invocation each mode performs.  `portal b` stands for the result
of `self.capture_via_portal(b)`. -/
def captureData (portal : Bool → Except ScreenshotErr Raster) :
    CaptureMode → Except ScreenshotErr Raster
  | .screen => portal false
  | .window => portal true
  | .region => portal true
  | .monitor => portal false

/-- `WaylandBackend::capture` (src/capture/wayland.rs:39-83), with the portal
round-trip abstracted into the oracle `portal`. -/
def capture (portal : Bool → Except ScreenshotErr Raster)
    (mode : CaptureMode) (options : CaptureOptions) : Except ScreenshotErr Raster :=
  match captureData portal mode with
  | .error e => .error e
  | .ok data => applyRegion options.region data

instance {ε α : Type} [DecidableEq ε] [DecidableEq α] : DecidableEq (Except ε α) :=
  fun a b =>
    match a, b with
    | .error e, .error f =>
      if h : e = f then isTrue (by rw [h])
      else isFalse (fun hh => by cases hh; exact h rfl)
    | .error _, .ok _ => isFalse (fun hh => by cases hh)
    | .ok _, .error _ => isFalse (fun hh => by cases hh)
    | .ok a', .ok b' =>
      if h : a' = b' then isTrue (by rw [h])
      else isFalse (fun hh => by cases hh; exact h rfl)

theorem wrap32_eq_self {n : Int} (h1 : -2147483648 ≤ n) (h2 : n ≤ 2147483647) :
    wrap32 n = n := by
  unfold wrap32
  omega

theorem normalize_width (r : Region) : r.normalize.width = r.width := rfl

theorem normalize_height (r : Region) : r.normalize.height = r.height := rfl

theorem boundsCheck_false_iff (r : Region) (B : Raster)
    (hw : r.x + (r.width : Int) < 4294967296)
    (hh : r.y + (r.height : Int) < 4294967296) :
    boundsCheckFails r B = false ↔
      0 ≤ r.x ∧ 0 ≤ r.y ∧ r.x + r.width ≤ (B.width : Int) ∧
        r.y + r.height ≤ (B.height : Int) := by
  unfold boundsCheckFails u32ofI32
  simp only [Bool.or_eq_false_iff, decide_eq_false_iff_not, not_lt, gt_iff_lt]
  omega

/-- Claim C2 (amended): for regions whose `x + width` and `y + height` do not
overflow `u32` (are below `2^32`), the bounds check succeeds iff
`x >= 0`, `y >= 0`, `x + width <= B.width`, `y + height <= B.height`; on
success the capture proceeds to crop, and on failure it returns the
`InvalidRegion` error.  `q` is the requested region and `r = q.normalize`
the validated one. -/
theorem c2_valid_iff (r : Region) (B : Raster)
    (hw : r.x + (r.width : Int) < 4294967296)
    (hh : r.y + (r.height : Int) < 4294967296) :
    (boundsCheckFails r B = false ↔
      0 ≤ r.x ∧ 0 ≤ r.y ∧ r.x + r.width ≤ (B.width : Int) ∧
        r.y + r.height ≤ (B.height : Int)) ∧
    (∀ q : Region, q.normalize = r →
      (boundsCheckFails r B = false →
        applyRegion (some q) B = .ok (cropImm B r)) ∧
      (boundsCheckFails r B = true →
        applyRegion (some q) B = .error (.invalidRegion "Region out of bounds"))) := by
  refine ⟨boundsCheck_false_iff r B hw hh, ?_⟩
  intro q hq
  constructor
  · intro hfalse
    simp [applyRegion, hq, hfalse]
  · intro htrue
    simp [applyRegion, hq, htrue]

/-- Claim C2 counterexample: the region `{x:1, y:0, width:4294967295,
height:400}` against a 500 x 400 raster passes the bounds check (the `u32`
sum `1 + 4294967295` wraps to `0`), although `x + width <= B.width` is false
— the claimed iff fails. -/
theorem c2_counterexample :
    ¬(boundsCheckFails ⟨1, 0, 4294967295, 400⟩ ⟨500, 400⟩ = false ↔
      0 ≤ (1 : Int) ∧ 0 ≤ (0 : Int) ∧
        (1 : Int) + (4294967295 : Nat) ≤ ((500 : Nat) : Int) ∧
        (0 : Int) + (400 : Nat) ≤ ((400 : Nat) : Int)) := by decide

theorem c2_witness :
    ((100 : Int) + (200 : Nat) < 4294967296) ∧
    applyRegion (some ⟨100, 100, 200, 150⟩) ⟨1920, 1080⟩ =
      .ok (cropImm ⟨1920, 1080⟩ ⟨100, 100, 200, 150⟩) := by
  refine ⟨by decide, ?_⟩
  have h := c2_valid_iff ⟨100, 100, 200, 150⟩ ⟨1920, 1080⟩ (by decide) (by decide)
  exact (h.2 ⟨100, 100, 200, 150⟩ (by decide)).1 (by decide)

/-- Claim C3 (amended): provided the normalized region does not overflow
`u32` (`x + width < 2^32` and `y + height < 2^32`), a capture whose region
exceeds the returned raster fails with `InvalidRegion` and produces no
cropped output, and a capture whose region is in bounds returns a crop of
exactly the region's width and height. -/
theorem c3_oob_rejected (portal : Bool → Except ScreenshotErr Raster)
    (mode : CaptureMode) (r : Region) (B : Raster)
    (hdata : captureData portal mode = .ok B)
    (hw : r.normalize.x + (r.width : Int) < 4294967296)
    (hh : r.normalize.y + (r.height : Int) < 4294967296) :
    (¬(0 ≤ r.normalize.x ∧ 0 ≤ r.normalize.y ∧
        r.normalize.x + r.width ≤ (B.width : Int) ∧
        r.normalize.y + r.height ≤ (B.height : Int)) →
      capture portal mode ⟨some r⟩ = .error (.invalidRegion "Region out of bounds")) ∧
    ((0 ≤ r.normalize.x ∧ 0 ≤ r.normalize.y ∧
        r.normalize.x + r.width ≤ (B.width : Int) ∧
        r.normalize.y + r.height ≤ (B.height : Int)) →
      capture portal mode ⟨some r⟩ = .ok ⟨r.width, r.height⟩) := by
  have hcap : capture portal mode ⟨some r⟩ = applyRegion (some r) B := by
    unfold capture
    rw [hdata]
  have hiff := boundsCheck_false_iff r.normalize B
    (by rw [normalize_width]; exact hw) (by rw [normalize_height]; exact hh)
  rw [normalize_width, normalize_height] at hiff
  constructor
  · intro hcond
    have hbc : boundsCheckFails r.normalize B = true := by
      rcases h : boundsCheckFails r.normalize B with _ | _
      · exact absurd (hiff.mp h) hcond
      · rfl
    rw [hcap]
    simp [applyRegion, hbc]
  · intro hcond
    have hbc : boundsCheckFails r.normalize B = false := hiff.mpr hcond
    rw [hcap]
    simp only [applyRegion, hbc, Bool.false_eq_true, if_false]
    obtain ⟨h1, h2, h3, h4⟩ := hcond
    congr 1
    unfold cropImm u32ofI32
    rw [normalize_width, normalize_height]
    rw [Raster.mk.injEq]
    constructor
    · omega
    · omega

/-- Claim C3 counterexample: with a returned raster of 500 x 400, the
requested region `{x:2, y:0, width:4294967295, height:400}` exceeds the
raster (`2 + 4294967295 > 500`), yet the operation succeeds and produces a
clamped 499 x 400 crop instead of failing with `InvalidRegion`. -/
theorem c3_counterexample :
    capture (fun _ => .ok ⟨500, 400⟩) .screen ⟨some ⟨2, 0, 4294967295, 400⟩⟩ =
      .ok ⟨499, 400⟩ ∧
    ¬((2 : Int) + (4294967295 : Nat) ≤ ((500 : Nat) : Int)) := by decide

theorem c3_witness :
    capture (fun _ => .ok ⟨500, 400⟩) .screen ⟨some ⟨0, 0, 600, 400⟩⟩ =
      .error (.invalidRegion "Region out of bounds") ∧
    capture (fun _ => .ok ⟨1920, 1080⟩) .screen ⟨some ⟨100, 100, 200, 150⟩⟩ =
      .ok ⟨200, 150⟩ := by
  constructor
  · exact (c3_oob_rejected (fun _ => .ok ⟨500, 400⟩) .screen ⟨0, 0, 600, 400⟩
      ⟨500, 400⟩ rfl (by decide) (by decide)).1 (by decide)
  · exact (c3_oob_rejected (fun _ => .ok ⟨1920, 1080⟩) .screen ⟨100, 100, 200, 150⟩
      ⟨1920, 1080⟩ rfl (by decide) (by decide)).2 (by decide)

/-- Claim C6: whole-screen and per-monitor modes invoke the portal
non-interactively (`interactive = false`), window and region modes invoke it
interactively (`interactive = true`), and in every mode an explicitly
supplied region is applied as a client-side crop of the returned raster. -/
theorem c6_mode_interactivity (portal : Bool → Except ScreenshotErr Raster)
    (opts : CaptureOptions) (data : Raster) (r : Region) :
    captureData portal .screen = portal false ∧
    captureData portal .monitor = portal false ∧
    captureData portal .window = portal true ∧
    captureData portal .region = portal true ∧
    (∀ mode : CaptureMode,
      capture portal mode opts =
        match captureData portal mode with
        | .error e => .error e
        | .ok d => applyRegion opts.region d) ∧
    applyRegion none data = .ok data ∧
    applyRegion (some r) data =
      (if boundsCheckFails r.normalize data then
        .error (.invalidRegion "Region out of bounds")
      else .ok (cropImm data r.normalize)) :=
  ⟨rfl, rfl, rfl, rfl, fun _ => rfl, rfl, rfl⟩

/-- Claim C9: when width and height are at most `2^31 - 1` and `x + width`,
`y + height` do not overflow `i32`, `normalize` is the identity: width and
height are stored unsigned, so there is no inverted rectangle to resolve. -/
theorem c9_normalize_identity (r : Region)
    (hx : -2147483648 ≤ r.x) (hy : -2147483648 ≤ r.y)
    (hw : r.width ≤ 2147483647) (hh : r.height ≤ 2147483647)
    (hxw : r.x + (r.width : Int) ≤ 2147483647)
    (hyh : r.y + (r.height : Int) ≤ 2147483647) :
    r.normalize = r := by
  obtain ⟨x, y, w, h⟩ := r
  simp only [Region.normalize, wrap32, Region.mk.injEq, and_true]
  simp only at hx hy hw hh hxw hyh
  refine ⟨?_, ?_⟩
  · omega
  · omega

theorem c9_witness :
    ((5 : Int) + (7 : Nat) ≤ 2147483647) ∧
    Region.normalize ⟨5, -6, 7, 8⟩ = ⟨5, -6, 7, 8⟩ :=
  ⟨by decide,
    c9_normalize_identity ⟨5, -6, 7, 8⟩ (by decide) (by decide) (by decide)
      (by decide) (by decide) (by decide)⟩

/-- Truncation of a rational toward zero, the rounding Rust uses when casting
a float to an integer type. -/
def ratTrunc (q : ℚ) : Int :=
  if 0 ≤ q.num then ((q.num.toNat / q.den : Nat) : Int)
  else -(((-q.num).toNat / q.den : Nat) : Int)

/-- The value of `v as i32` for a float `v` (truncate, then saturate at the
`i32` range). -/
def f64toI32 (q : ℚ) : Int := max (-2147483648) (min 2147483647 (ratTrunc q))

/-- The value of `v as u32` for a float `v` (truncate, then saturate at the
`u32` range; negative values go to 0). -/
def f64toU32 (q : ℚ) : Nat := (min 4294967295 (max 0 (ratTrunc q))).toNat

/-- The selection rectangle computed by the overlay from the drag anchor
`(sx, sy)` and the pointer position `(x, y)` (src/ui/overlay.rs:140-145 and
165-170): `Region::new(start_x.min(x) as i32, start_y.min(y) as i32,
(x - start_x).abs() as u32, (y - start_y).abs() as u32)`. -/
def regionFrom (sx sy x y : ℚ) : Region :=
  Region.new (f64toI32 (min sx x)) (f64toI32 (min sy y))
    (f64toU32 |x - sx|) (f64toU32 |y - sy|)

/-- The mutable state shared by the overlay's event-handler closures
(src/ui/overlay.rs:64-66 and the `window`), plus a count of the capture
tasks spawned via `glib::MainContext::spawn_local`.  `window_open` models
whether the `ApplicationWindow` is still up: events are only delivered
while it is. -/
structure OverlayState where
  drag_start : Option (ℚ × ℚ)
  selection : Option Region
  is_dragging : Bool
  window_open : Bool
  captures : Nat
deriving DecidableEq

/-- The overlay's input events: pointer press/release (GestureClick), pointer
motion (EventControllerMotion), and the two named keys plus any other key
(EventControllerKey). -/
inductive UIEvent where
  | pressed (x y : ℚ)
  | released (x y : ℚ)
  | motion (x y : ℚ)
  | keySpace
  | keyEscape
  | keyOther
deriving DecidableEq

/-- The initial session state at overlay creation (src/ui/overlay.rs:64-66):
no anchor, no selection, not dragging, window open, no capture spawned. -/
def initState : OverlayState :=
  { drag_start := none, selection := none, is_dragging := false,
    window_open := true, captures := 0 }

/-- One synchronous event-handler dispatch (src/ui/overlay.rs):
* `connect_pressed` (124-129): record anchor, clear selection, set dragging;
* `connect_released` (138-150): if an anchor exists, store the finalized
  selection; always clear `is_dragging`; the anchor is NOT cleared;
* `connect_motion` (162-175): while dragging with an anchor, recompute the
  live selection;
* space key (186-222): if a selection exists, spawn the capture task
  (`captures + 1`); the selection is NOT cleared and no committed flag is
  set, so nothing stops a later press from spawning again.  The
  `window_clone.close()` inside the spawned task runs only after the
  awaited `cli::execute` round-trip completes, i.e. not during this
  synchronous dispatch, so the window stays open here;
* Escape key (223-226): close the window;
* any other key (227): no effect.
Events arriving after the window closed are not delivered. -/
def step (s : OverlayState) (e : UIEvent) : OverlayState :=
  if s.window_open = false then s else
  match e with
  | .pressed x y =>
    { s with drag_start := some (x, y), selection := none, is_dragging := true }
  | .released x y =>
    match s.drag_start with
    | some (sx, sy) =>
      { s with selection := some (regionFrom sx sy x y), is_dragging := false }
    | none => { s with is_dragging := false }
  | .motion x y =>
    if s.is_dragging then
      match s.drag_start with
      | some (sx, sy) => { s with selection := some (regionFrom sx sy x y) }
      | none => s
    else s
  | .keySpace =>
    match s.selection with
    | some _ => { s with captures := s.captures + 1 }
    | none => s
  | .keyEscape => { s with window_open := false }
  | .keyOther => s

/-- The session state after a sequence of UI input events. -/
def run (events : List UIEvent) : OverlayState :=
  events.foldl step initState

theorem ratTrunc_intCast (n : Int) : ratTrunc (n : ℚ) = n := by
  unfold ratTrunc
  rw [Rat.num_intCast, Rat.den_intCast]
  rcases le_or_lt 0 n with h | h
  · rw [if_pos h]
    omega
  · rw [if_neg (by omega)]
    omega

theorem f64toI32_intCast (n : Int) (h1 : -2147483648 ≤ n) (h2 : n ≤ 2147483647) :
    f64toI32 (n : ℚ) = n := by
  unfold f64toI32
  rw [ratTrunc_intCast]
  omega

theorem f64toU32_intCast (n : Int) (h0 : 0 ≤ n) (h1 : n ≤ 4294967295) :
    f64toU32 (n : ℚ) = n.toNat := by
  unfold f64toU32
  rw [ratTrunc_intCast]
  omega

/-- Claim C1 counterexample: in the session `press(100,100), release(300,250),
confirm, confirm`, the first confirm key press spawns one capture task, and
the second spawns another — two capture invocations in the same session,
because neither the selection nor any committed flag is updated by the
confirm handler. -/
theorem c1_counterexample :
    (run [.pressed 100 100, .released 300 250, .keySpace]).captures = 1 ∧
    (run [.pressed 100 100, .released 300 250, .keySpace, .keySpace]).captures = 2 :=
  ⟨rfl, rfl⟩

/-- Claim C1 (amended): every confirm (space) key press delivered while the
overlay window is open and a selection is present spawns one more capture
invocation — including presses after a first capture has already been
initiated; a confirm press with no selection spawns none, and after the
window has closed no handler runs. -/
theorem c1_confirm_spawns (s : OverlayState) :
    (s.window_open = true → s.selection.isSome = true →
      (step s .keySpace).captures = s.captures + 1) ∧
    (s.selection = none → (step s .keySpace).captures = s.captures) ∧
    (s.window_open = false → step s .keySpace = s) := by
  refine ⟨?_, ?_, ?_⟩
  · intro hopen hsel
    cases hsel' : s.selection with
    | none => rw [hsel'] at hsel; exact absurd hsel (by simp)
    | some v => simp [step, hopen, hsel']
  · intro hsel
    cases hopen : s.window_open with
    | false => simp [step, hopen]
    | true => simp [step, hopen, hsel]
  · intro hclosed
    simp [step, hclosed]

theorem c1_witness :
    ((run [.pressed 100 100, .released 300 250, .keySpace]).window_open = true) ∧
    ((run [.pressed 100 100, .released 300 250, .keySpace]).selection.isSome = true) ∧
    (step (run [.pressed 100 100, .released 300 250, .keySpace]) .keySpace).captures =
      (run [.pressed 100 100, .released 300 250, .keySpace]).captures + 1 :=
  ⟨rfl, rfl,
    (c1_confirm_spawns (run [.pressed 100 100, .released 300 250, .keySpace])).1 rfl rfl⟩

/-- Claim C7 counterexample: after `press(10,10)` then `release(20,20)` the
selection is finalized and the dragging flag is cleared, but the drag anchor
is NOT cleared: `drag_start` is still `some (10, 10)`, not `none`
(the release handler never writes `drag_start`). -/
theorem c7_counterexample :
    (run [.pressed 10 10, .released 20 20]).is_dragging = false ∧
    (run [.pressed 10 10, .released 20 20]).selection =
      some (regionFrom 10 10 20 20) ∧
    (run [.pressed 10 10, .released 20 20]).drag_start = some (10, 10) ∧
    (run [.pressed 10 10, .released 20 20]).drag_start ≠ none :=
  ⟨rfl, rfl, rfl, fun h => Option.noConfusion h⟩

/-- Claim C7 (amended): a pointer release while a drag is in progress
finalizes the selection from the anchor and the release point and clears the
dragging flag; the drag anchor is retained (keeps its value), not cleared. -/
theorem c7_release_transition (s : OverlayState) (sx sy x y : ℚ)
    (hopen : s.window_open = true)
    (hanchor : s.drag_start = some (sx, sy))
    (hdrag : s.is_dragging = true) :
    step s (.released x y) =
      { s with selection := some (regionFrom sx sy x y), is_dragging := false } ∧
    (step s (.released x y)).drag_start = some (sx, sy) := by
  have h : step s (.released x y) =
      { s with selection := some (regionFrom sx sy x y), is_dragging := false } := by
    simp [step, hopen, hanchor]
  refine ⟨h, ?_⟩
  rw [h]
  exact hanchor

theorem c7_witness :
    ((run [.pressed 10 10]).window_open = true) ∧
    ((run [.pressed 10 10]).drag_start = some (10, 10)) ∧
    ((run [.pressed 10 10]).is_dragging = true) ∧
    (step (run [.pressed 10 10]) (.released 20 20)).drag_start = some (10, 10) :=
  ⟨rfl, rfl, rfl,
    (c7_release_transition (run [.pressed 10 10]) 10 10 20 20 rfl rfl rfl).2⟩

/-- Claim C8: the normalized selection rectangle produced by a drag anchored
at `a` and released at `b` equals the one produced by a drag anchored at `b`
and released at `a` — selection construction is direction-independent. -/
theorem c8_direction_independence (a1 a2 b1 b2 : ℚ) :
    (regionFrom a1 a2 b1 b2).normalize = (regionFrom b1 b2 a1 a2).normalize := by
  have h : regionFrom a1 a2 b1 b2 = regionFrom b1 b2 a1 a2 := by
    unfold regionFrom
    rw [min_comm a1 b1, min_comm a2 b2, abs_sub_comm b1 a1, abs_sub_comm b2 a2]
  rw [h]

/-- Monitor geometry as provided by `gdk::Monitor::geometry()`
(src/ui/overlay.rs:47): the monitor's global offset and size. -/
structure MonitorGeometry where
  x : Int
  y : Int
  width : Nat
  height : Nat
deriving DecidableEq

/-- The commit translation performed at the start of the space-key handler's
spawned task (src/ui/overlay.rs:191-192):
`sel.x += monitor_geom.x(); sel.y += monitor_geom.y()` — wrapping `i32`
addition; width and height untouched. -/
def commitRegion (sel : Region) (geom : MonitorGeometry) : Region :=
  { sel with x := wrap32 (sel.x + geom.x), y := wrap32 (sel.y + geom.y) }

/-- Claim C4: the committed region is the overlay-local selection rectangle
translated by adding the monitor's global x/y offset, with width and height
unchanged (for offsets representable in `i32`, which every real monitor
layout satisfies). -/
theorem c4_commit_translate (sel : Region) (geom : MonitorGeometry)
    (hx1 : -2147483648 ≤ sel.x + geom.x) (hx2 : sel.x + geom.x ≤ 2147483647)
    (hy1 : -2147483648 ≤ sel.y + geom.y) (hy2 : sel.y + geom.y ≤ 2147483647) :
    commitRegion sel geom =
      { x := sel.x + geom.x, y := sel.y + geom.y,
        width := sel.width, height := sel.height } := by
  unfold commitRegion
  rw [wrap32_eq_self hx1 hx2, wrap32_eq_self hy1 hy2]

theorem c4_witness :
    regionFrom 100 100 300 250 = ⟨100, 100, 200, 150⟩ ∧
    commitRegion (regionFrom 100 100 300 250) ⟨1920, 0, 1920, 1080⟩ =
      ⟨2020, 100, 200, 150⟩ := by
  have hreg : regionFrom 100 100 300 250 = (⟨100, 100, 200, 150⟩ : Region) := by
    unfold regionFrom Region.new
    have e1 : min (100 : ℚ) 300 = ((100 : Int) : ℚ) := by norm_num
    have e2 : min (100 : ℚ) 250 = ((100 : Int) : ℚ) := by norm_num
    have e3 : |(300 : ℚ) - 100| = ((200 : Int) : ℚ) := by norm_num
    have e4 : |(250 : ℚ) - 100| = ((150 : Int) : ℚ) := by norm_num
    rw [e1, e2, e3, e4, f64toI32_intCast 100 (by decide) (by decide),
      f64toU32_intCast 200 (by decide) (by decide),
      f64toU32_intCast 150 (by decide) (by decide)]
    rfl
  refine ⟨hreg, ?_⟩
  rw [hreg]
  have h := c4_commit_translate ⟨100, 100, 200, 150⟩ ⟨1920, 0, 1920, 1080⟩
    (by decide) (by decide) (by decide) (by decide)
  exact h.trans (by decide)

/-- The possible outcomes of the portal round-trip in
`WaylandBackend::capture_via_portal` (src/capture/wayland.rs:15-34):
the request can fail to send, the response can be an error, the returned URI
can fail to convert to a file path, or an artifact file is saved at `path`
and decoding it yields a raster (`some`) or fails (`none`). -/
inductive PortalOutcome where
  | sendErr (msg : String)
  | responseErr (msg : String)
  | invalidPath
  | saved (path : String) (decoded : Option Raster)
deriving DecidableEq

/-- `WaylandBackend::capture_via_portal` (src/capture/wayland.rs:15-34)
together with the filesystem state `fs` (the list of files on disk; when the
outcome is `saved path _`, the portal service has written the artifact at
`path`, so `path` is expected to be in `fs`).  The function maps each arm of
the source to its result; it contains no file-removal call, so `fs` passes
through unchanged on every path. -/
def capture_via_portal (fs : List String) :
    PortalOutcome → Except ScreenshotErr Raster × List String
  | .sendErr msg => (.error (.portal msg), fs)
  | .responseErr msg => (.error (.portal msg), fs)
  | .invalidPath => (.error (.portal "Invalid file path"), fs)
  | .saved _ none => (.error .image, fs)
  | .saved _ (some img) => (.ok img, fs)

/-- Claim C5 counterexample: after a successful portal round-trip whose
artifact `"portal-shot.png"` is on disk, the file is still on disk when the
capability returns — both when decoding succeeds and when it fails — so a
temporary file IS left on disk, contrary to the claim. -/
theorem c5_counterexample :
    (capture_via_portal ["portal-shot.png"]
        (.saved "portal-shot.png" (some ⟨1920, 1080⟩))).1 = .ok ⟨1920, 1080⟩ ∧
    "portal-shot.png" ∈
      (capture_via_portal ["portal-shot.png"]
        (.saved "portal-shot.png" (some ⟨1920, 1080⟩))).2 ∧
    "portal-shot.png" ∈
      (capture_via_portal ["portal-shot.png"]
        (.saved "portal-shot.png" none)).2 := by
  refine ⟨rfl, ?_, ?_⟩
  · simp [capture_via_portal]
  · simp [capture_via_portal]

/-- Claim C5 (amended): the capability never releases the portal's temporary
artifact: on every exit path — send error, response error, invalid path,
decode failure, or success — the filesystem is returned unchanged, so the
temporary file remains on disk after the operation. -/
theorem c5_no_cleanup (fs : List String) (o : PortalOutcome) :
    (capture_via_portal fs o).2 = fs := by
  cases o with
  | sendErr msg => rfl
  | responseErr msg => rfl
  | invalidPath => rfl
  | saved path decoded => cases decoded <;> rfl

/-- The character for decimal digit `d`. -/
def digitChar (d : Nat) : Char := Char.ofNat (48 + d)

/-- Char is an ASCII decimal digit (as `u32/i32::from_str` requires). -/
def isDigitChar (c : Char) : Bool := decide (48 ≤ c.toNat) && decide (c.toNat ≤ 57)

/-- The numeric value of a big-endian decimal digit string. -/
def digitsVal (l : List Char) : Nat :=
  l.foldl (fun a c => 10 * a + (c.toNat - 48)) 0

/-- Decimal expansion (most significant digit first) of `n`, with `fuel`
bounding the recursion depth; complete whenever `n <= fuel`. -/
def natToCharsAux : Nat → Nat → List Char
  | _, 0 => []
  | 0, _ + 1 => []
  | fuel + 1, n + 1 =>
    natToCharsAux fuel ((n + 1) / 10) ++ [digitChar ((n + 1) % 10)]

/-- Decimal rendering of a `u32` value, as Rust's `{}` Display prints it
(digits only, no sign, no padding, `"0"` for zero). -/
def natToChars (n : Nat) : List Char :=
  if n = 0 then ['0'] else natToCharsAux n n

/-- Decimal rendering of an `i32` value, as Rust's `{}` Display prints it
(a leading `-` for negatives, no `+`). -/
def intToChars (n : Int) : List Char :=
  if n < 0 then '-' :: natToChars (-n).toNat else natToChars n.toNat

/-- The string the overlay hands to the CLI for a committed region
(src/ui/overlay.rs:206-209): `format!("{},{},{},{}", x, y, width, height)`.
Strings are modelled as lists of characters. -/
def formatRegion (r : Region) : List Char :=
  intToChars r.x ++ ',' ::
    (intToChars r.y ++ ',' :: (natToChars r.width ++ ',' :: natToChars r.height))

/-- Shared body of Rust's `from_str` for unsigned decimal digit strings:
succeeds on a nonempty all-digit string whose value is within `bound`. -/
def parseNatCore (l : List Char) (bound : Nat) : Option Nat :=
  if l ≠ [] ∧ (∀ c ∈ l, isDigitChar c = true) ∧ digitsVal l ≤ bound then
    some (digitsVal l)
  else none

/-- Rust `u32::from_str` (`parts[i].parse()` in `Args::parse_region`):
optional leading `+`, then decimal digits, value at most `u32::MAX`. -/
def parseU32 : List Char → Option Nat
  | [] => none
  | c :: rest =>
    if c = '+' then parseNatCore rest 4294967295
    else parseNatCore (c :: rest) 4294967295

/-- Rust `i32::from_str`: optional sign, then decimal digits, value within
the `i32` range. -/
def parseI32 : List Char → Option Int
  | [] => none
  | c :: rest =>
    if c = '-' then
      match parseNatCore rest 2147483648 with
      | some v => some (-(v : Int))
      | none => none
    else if c = '+' then
      match parseNatCore rest 2147483647 with
      | some v => some ((v : Nat) : Int)
      | none => none
    else
      match parseNatCore (c :: rest) 2147483647 with
      | some v => some ((v : Nat) : Int)
      | none => none

/-- Rust's `str::split(',')` on a list of characters: the substrings between
commas, empties included. -/
def splitComma : List Char → List (List Char)
  | [] => [[]]
  | c :: cs =>
    if c = ',' then [] :: splitComma cs
    else
      match splitComma cs with
      | [] => [[c]]
      | h :: t => (c :: h) :: t

/-- `Args::parse_region` (src/cli/args.rs:106-119): split on `,`, require
exactly four parts, parse them as `i32, i32, u32, u32`. -/
def parse_region (s : List Char) : Option Region :=
  match splitComma s with
  | [p0, p1, p2, p3] =>
    match parseI32 p0, parseI32 p1, parseU32 p2, parseU32 p3 with
    | some x, some y, some w, some h => some (Region.new x y w h)
    | _, _, _, _ => none
  | _ => none

theorem digitChar_props {d : Nat} (h : d < 10) :
    (digitChar d).toNat = 48 + d ∧ isDigitChar (digitChar d) = true ∧
    digitChar d ≠ ',' ∧ digitChar d ≠ '+' ∧ digitChar d ≠ '-' := by
  interval_cases d <;> exact ⟨rfl, rfl, by decide, by decide, by decide⟩

theorem digitsVal_from (l : List Char) (acc : Nat) :
    l.foldl (fun a c => 10 * a + (c.toNat - 48)) acc
      = acc * 10 ^ l.length + digitsVal l := by
  induction l generalizing acc with
  | nil => simp [digitsVal]
  | cons c t ih =>
    simp only [digitsVal, List.foldl_cons, List.length_cons]
    rw [ih (10 * acc + (c.toNat - 48)), ih (10 * 0 + (c.toNat - 48))]
    ring

theorem digitsVal_append (l1 l2 : List Char) :
    digitsVal (l1 ++ l2) = digitsVal l1 * 10 ^ l2.length + digitsVal l2 := by
  unfold digitsVal
  rw [List.foldl_append]
  exact digitsVal_from l2 _

theorem natToCharsAux_zero (fuel : Nat) : natToCharsAux fuel 0 = [] := by
  cases fuel <;> rfl

theorem natToCharsAux_spec (fuel : Nat) : ∀ n : Nat, 0 < n → n ≤ fuel →
    natToCharsAux fuel n ≠ [] ∧
    (∀ c ∈ natToCharsAux fuel n,
      isDigitChar c = true ∧ c ≠ ',' ∧ c ≠ '+' ∧ c ≠ '-') ∧
    digitsVal (natToCharsAux fuel n) = n := by
  induction fuel with
  | zero => intro n h1 h2; omega
  | succ f ih =>
    intro n h1 h2
    obtain ⟨m, rfl⟩ : ∃ m, n = m + 1 := ⟨n - 1, by omega⟩
    simp only [natToCharsAux]
    by_cases hq : (m + 1) / 10 = 0
    · have hlt : m + 1 < 10 := by omega
      rw [hq, natToCharsAux_zero, List.nil_append, Nat.mod_eq_of_lt hlt]
      obtain ⟨htn, hdig, hc1, hc2, hc3⟩ := digitChar_props (d := m + 1) hlt
      refine ⟨by simp, ?_, ?_⟩
      · intro c hc
        rw [List.mem_singleton] at hc
        subst hc
        exact ⟨hdig, hc1, hc2, hc3⟩
      · simp only [digitsVal, List.foldl_cons, List.foldl_nil, htn]
        omega
    · have hle : (m + 1) / 10 ≤ f := by omega
      obtain ⟨hne, hmem, hval⟩ := ih ((m + 1) / 10) (Nat.pos_of_ne_zero hq) hle
      obtain ⟨htn, hdig, hc1, hc2, hc3⟩ := digitChar_props (d := (m + 1) % 10) (by omega)
      refine ⟨by simp, ?_, ?_⟩
      · intro c hc
        rcases List.mem_append.mp hc with h | h
        · exact hmem c h
        · rw [List.mem_singleton] at h
          subst h
          exact ⟨hdig, hc1, hc2, hc3⟩
      · rw [digitsVal_append, hval]
        have hone : digitsVal [digitChar ((m + 1) % 10)] = (m + 1) % 10 := by
          simp [digitsVal, htn]
        rw [hone]
        simp only [List.length_singleton, pow_one]
        omega

theorem natToChars_spec (n : Nat) :
    natToChars n ≠ [] ∧
    (∀ c ∈ natToChars n,
      isDigitChar c = true ∧ c ≠ ',' ∧ c ≠ '+' ∧ c ≠ '-') ∧
    digitsVal (natToChars n) = n := by
  unfold natToChars
  by_cases h : n = 0
  · subst h
    rw [if_pos rfl]
    refine ⟨by simp, ?_, rfl⟩
    intro c hc
    rw [List.mem_singleton] at hc
    subst hc
    exact ⟨rfl, by decide, by decide, by decide⟩
  · rw [if_neg h]
    exact natToCharsAux_spec n n (by omega) le_rfl

theorem natToChars_no_comma (n : Nat) : ∀ c ∈ natToChars n, c ≠ ',' :=
  fun c hc => ((natToChars_spec n).2.1 c hc).2.1

theorem intToChars_no_comma (n : Int) : ∀ c ∈ intToChars n, c ≠ ',' := by
  intro c hc
  unfold intToChars at hc
  by_cases h : n < 0
  · rw [if_pos h] at hc
    rcases List.mem_cons.mp hc with rfl | h'
    · decide
    · exact natToChars_no_comma _ c h'
  · rw [if_neg h] at hc
    exact natToChars_no_comma _ c hc

theorem splitComma_no_comma (l : List Char) (h : ∀ c ∈ l, c ≠ ',') :
    splitComma l = [l] := by
  induction l with
  | nil => rfl
  | cons c cs ih =>
    have hc : c ≠ ',' := h c (by simp)
    simp only [splitComma, if_neg hc]
    rw [ih (fun c' hc' => h c' (by simp [hc']))]

theorem splitComma_append (l1 l2 : List Char) (h : ∀ c ∈ l1, c ≠ ',') :
    splitComma (l1 ++ ',' :: l2) = l1 :: splitComma l2 := by
  induction l1 with
  | nil => simp [splitComma]
  | cons c cs ih =>
    have hc : c ≠ ',' := h c (by simp)
    have ih' := ih (fun c' hc' => h c' (by simp [hc']))
    show splitComma (c :: (cs ++ ',' :: l2)) = (c :: cs) :: splitComma l2
    simp only [splitComma, if_neg hc]
    rw [ih']

theorem parseNatCore_natToChars (n bound : Nat) (h : n ≤ bound) :
    parseNatCore (natToChars n) bound = some n := by
  obtain ⟨hne, hmem, hval⟩ := natToChars_spec n
  unfold parseNatCore
  rw [if_pos ⟨hne, fun c hc => (hmem c hc).1, by rw [hval]; exact h⟩, hval]

theorem parseU32_natToChars (n : Nat) (h : n ≤ 4294967295) :
    parseU32 (natToChars n) = some n := by
  obtain ⟨hne, hmem, hval⟩ := natToChars_spec n
  have hp := parseNatCore_natToChars n 4294967295 h
  rcases hl : natToChars n with _ | ⟨c, rest⟩
  · exact absurd hl hne
  · have hc : c ≠ '+' :=
      (hmem c (by rw [hl]; exact List.mem_cons_self c rest)).2.2.1
    simp only [parseU32, if_neg hc]
    rw [← hl]
    exact hp

theorem parseI32_intToChars (n : Int) (h1 : -2147483648 ≤ n) (h2 : n ≤ 2147483647) :
    parseI32 (intToChars n) = some n := by
  unfold intToChars
  by_cases hneg : n < 0
  · rw [if_pos hneg]
    have hp := parseNatCore_natToChars (-n).toNat 2147483648 (by omega)
    have hstep : parseI32 ('-' :: natToChars (-n).toNat)
        = match parseNatCore (natToChars (-n).toNat) 2147483648 with
          | some v => some (-(v : Int))
          | none => none := by
      simp [parseI32]
    rw [hstep, hp]
    show some (-(((-n).toNat : Nat) : Int)) = some n
    congr 1
    omega
  · rw [if_neg hneg]
    obtain ⟨hne, hmem, hval⟩ := natToChars_spec n.toNat
    have hp := parseNatCore_natToChars n.toNat 2147483647 (by omega)
    rcases hl : natToChars n.toNat with _ | ⟨c, rest⟩
    · exact absurd hl hne
    · have hcm : c ≠ '-' :=
        (hmem c (by rw [hl]; exact List.mem_cons_self c rest)).2.2.2
      have hcp : c ≠ '+' :=
        (hmem c (by rw [hl]; exact List.mem_cons_self c rest)).2.2.1
      simp only [parseI32, if_neg hcm, if_neg hcp]
      rw [← hl, hp]
      show some ((n.toNat : Nat) : Int) = some n
      congr 1
      omega

/-- Claim C10: formatting a region as `"x,y,width,height"` (as the overlay
does when handing a committed region to the CLI) and parsing the string back
with `Args::parse_region` returns exactly the same region — the GUI-to-CLI
hand-off preserves the region. -/
theorem c10_region_roundtrip (r : Region)
    (hx1 : -2147483648 ≤ r.x) (hx2 : r.x ≤ 2147483647)
    (hy1 : -2147483648 ≤ r.y) (hy2 : r.y ≤ 2147483647)
    (hw : r.width ≤ 4294967295) (hh : r.height ≤ 4294967295) :
    parse_region (formatRegion r) = some r := by
  have hsplit : splitComma (formatRegion r) =
      [intToChars r.x, intToChars r.y, natToChars r.width, natToChars r.height] := by
    unfold formatRegion
    rw [splitComma_append _ _ (intToChars_no_comma r.x),
      splitComma_append _ _ (intToChars_no_comma r.y),
      splitComma_append _ _ (natToChars_no_comma r.width),
      splitComma_no_comma _ (natToChars_no_comma r.height)]
  unfold parse_region
  rw [hsplit]
  simp only [parseI32_intToChars r.x hx1 hx2, parseI32_intToChars r.y hy1 hy2,
    parseU32_natToChars r.width hw, parseU32_natToChars r.height hh]
  rfl

theorem c10_witness :
    ((-2147483648 : Int) ≤ 2020 ∧ (200 : Nat) ≤ 4294967295) ∧
    parse_region (formatRegion ⟨2020, 100, 200, 150⟩) = some ⟨2020, 100, 200, 150⟩ :=
  ⟨⟨by decide, by decide⟩,
    c10_region_roundtrip ⟨2020, 100, 200, 150⟩ (by decide) (by decide) (by decide)
      (by decide) (by decide) (by decide)⟩

end JSWST
